import Mathlib

/-!
Verification of the Wishbone master driver, the Avalon-ST packet monitor and
the generic monitor core of this repository, by a shallow embedding of the
Python sources into Lean.

Conventions of the embedding:
* Simulator signal values sampled at clock edges are external inputs; they are
  passed as explicit parameters (single sampled values, or lists of successive
  per-edge samples).
* Python `None` becomes `Option.none`; Python integers become `Nat` where the
  source only ever stores non-negative values, and `Int` where a subtraction
  can occur (the `waitAck -= ts` adjustment).
* Fallible code returns `Except`; each distinct `raise` site in the source has
  its own error constructor.
* Coroutine suspension points (`yield clock_event`) are counted where a claim
  needs them; bus output assignments are recorded as an explicit trace.
-/

namespace Cocotb

/-- Wishbone operation request, class WBOp of src/cocotbext/wishbone/driver.py
(lines 34-44): address, optional write data (none means read), requested idle
cycles, byte-select mask. -/
structure WBOp where
  adr : Nat
  dat : Option Nat
  idle : Option Nat
  sel : Nat
deriving DecidableEq

/-- Auxiliary per-operation metadata, class WBAux of driver.py (lines 18-30):
select, address, write data, requested idle count, observed stall count and
the issue timestamp (cycle counter at strobe). -/
structure WBAux where
  sel : Nat
  adr : Nat
  datwr : Nat
  waitIdle : Option Nat
  waitStall : Nat
  ts : Int
deriving DecidableEq

/-- Wishbone result, class WBRes of driver.py (lines 47-62).  Fields that the
source can hold as Python `None` are `Option`s; `waitAck` is an `Int` because
`send_cycle` subtracts the issue timestamp from it. -/
structure WBRes where
  ack : Nat
  sel : Option Nat
  adr : Option Nat
  datrd : Option Nat
  datwr : Option Nat
  waitIdle : Option Nat
  waitStall : Option Nat
  waitAck : Int
deriving DecidableEq

/-- Reply lines sampled at one clock edge.  `ack` is a mandatory bus signal;
`err` and `rty` are optional signals of the WishboneBus, `none` models a bus
on which the signal is absent (the `hasattr` checks of the source). -/
structure ReplyLines where
  ack : Bool
  err : Option Bool
  rty : Option Bool
deriving DecidableEq

/-- Faults of the Wishbone driver; one constructor per distinct raise site of
driver.py.  `nameError` is the unbound-local `result` at line 306 reached when
the operation list is empty; `hang` marks a wait that never terminates in the
supplied sample stream; `incompleteCycle` marks a cycle close that never sees
all acknowledgements (timeout or unbounded wait, lines 142-151). -/
inductive WBFault where
  | badArgument
  | nameError
  | ackAndErr
  | ackAndRty
  | errAndRty
  | stallTimeout
  | badElement
  | hang
  | incompleteCycle
deriving DecidableEq

/-- WishboneMaster._get_reply (driver.py lines 191-206): classify the sampled
ack/err/rty lines into (valid-reply?, code), raising on any simultaneous
assertion.  Code 0 = no reply, 1 = ACK, 2 = ERR, 3 = RTY. -/
def get_reply (l : ReplyLines) : Except WBFault (Bool × Nat) :=
  let ack0 := l.ack
  let code0 : Nat := if ack0 then 1 else 0
  if l.err.getD false then
    if ack0 then .error .ackAndErr
    else if l.rty.getD false then .error .errAndRty
    else .ok (true, 2)
  else if l.rty.getD false then
    if ack0 then .error .ackAndRty
    else .ok (true, 3)
  else .ok (ack0, code0)

/-- Loop body of WishboneMaster._wait_stall (driver.py lines 164-173): while
the sampled stall value is high, wait one edge, increment the counter and
raise once the counter exceeds the configured timeout.  `samples` are the
successive stall samples; an exhausted list stands for a signal that is low
from then on. -/
def wait_stall_go (tmo : Option Nat) : List Bool → Nat → Except WBFault Nat
  | [], count => .ok count
  | s :: rest, count =>
    if s then
      match tmo with
      | some T =>
        if count + 1 > T then .error .stallTimeout
        else wait_stall_go (some T) rest (count + 1)
      | none => wait_stall_go none rest (count + 1)
    else .ok count

/-- WishboneMaster._wait_stall (driver.py lines 160-174): only runs its loop
when the bus has a stall signal (pipelined mode); returns the number of
stalled cycles. -/
def wait_stall (hasStall : Bool) (tmo : Option Nat) (samples : List Bool) :
    Except WBFault Nat :=
  if hasStall then wait_stall_go tmo samples 0 else .ok 0

/-- Loop body of WishboneMaster._wait_ack (driver.py lines 182-187): sample
the reply lines each edge until a valid reply is seen, counting the waited
edges.  An exhausted sample list models a wait that never finishes. -/
def wait_ack_go : List ReplyLines → Nat → Except WBFault Nat
  | [], _ => .error .hang
  | r :: rest, count =>
    match get_reply r with
    | .error f => .error f
    | .ok (a, _) => if a then .ok count else wait_ack_go rest (count + 1)

/-- WishboneMaster._wait_ack (driver.py lines 177-188): only loops in classic
(non-pipelined) mode, i.e. when no stall signal exists on the bus. -/
def wait_ack (hasStall : Bool) (samples : List ReplyLines) :
    Except WBFault Nat :=
  if hasStall then .ok 0 else wait_ack_go samples 0

/-- Bus output assignment performed by the driver, in program order. -/
inductive SigAssign where
  | cyc (v : Nat)
  | stb (v : Nat)
  | adr (v : Nat)
  | sel (v : Nat)
  | datwr (v : Nat)
  | we (v : Nat)
deriving DecidableEq

/-- Successful outcome of one _drive call: clock edges consumed and the WBAux
entry appended to the auxiliary buffer. -/
structure DriveOk where
  edges : Nat
  aux : WBAux
deriving DecidableEq

/-- Busy branch of WishboneMaster._drive (driver.py lines 234-256): wait the
requested idle edges, assert strobe/address/select/data/write-enable, wait one
edge, resolve stall then ack, append the WBAux entry (select, address, write
data, stall count, idle request, issue timestamp = current cycle counter) and
de-assert strobe and write-enable.  Returns the assignment trace together
with the outcome; on a fault the trace holds the assignments made before the
fault (strobe still asserted). -/
def driveBody (hasStall : Bool) (tmo : Option Nat) (we adr datwr sel : Nat)
    (idle : Option Nat) (stallS : List Bool) (ackS : List ReplyLines)
    (clk : Int) : List SigAssign × Except WBFault DriveOk :=
  let idleEdges := match idle with | some n => n | none => 0
  let pre : List SigAssign :=
    [.stb 1, .adr adr, .sel sel, .datwr datwr, .we we]
  match wait_stall hasStall tmo stallS with
  | .error f => (pre, .error f)
  | .ok stalled =>
    match wait_ack hasStall ackS with
    | .error f => (pre, .error f)
    | .ok ackEdges =>
      (pre ++ [.stb 0, .we 0],
       .ok ⟨idleEdges + 1 + stalled + ackEdges,
            ⟨sel, adr, datwr, idle, stalled, clk⟩⟩)

/-- Full observable outcome of one _drive call. -/
structure DriveResult where
  assigns : List SigAssign
  edges : Option Nat
  aux : Option WBAux
  fault : Option WBFault
  loggedError : Bool
deriving DecidableEq

/-- WishboneMaster._drive (driver.py lines 228-258) including its busy guard:
when the driver is not busy (no open cycle) the call only logs an error,
assigns no signal and waits no clock edge.  `edges` is `none` when a fault
aborted the call (edges consumed up to the fault are not tracked). -/
def drive (busy hasStall : Bool) (tmo : Option Nat) (we adr datwr sel : Nat)
    (idle : Option Nat) (stallS : List Bool) (ackS : List ReplyLines)
    (clk : Int) : DriveResult :=
  if busy then
    match driveBody hasStall tmo we adr datwr sel idle stallS ackS clk with
    | (tr, .error f) => ⟨tr, none, none, some f, false⟩
    | (tr, .ok dok) => ⟨tr, some dok.edges, some dok.aux, none, false⟩
  else ⟨[], some 0, none, none, true⟩

/-- Result/auxiliary zip of send_cycle (driver.py lines 296-304): pair the
reply buffer and the auxiliary buffer positionally; each merged result keeps
the reply's ack code and read data, takes select, address, write data, idle
and stall counts from the auxiliary entry, and its waitAck becomes the
captured cycle counter minus the issue timestamp. -/
def mergeResults : List WBRes → List WBAux → List WBRes
  | r :: rs, a :: rest =>
    ⟨r.ack, some a.sel, some a.adr, r.datrd, some a.datwr, a.waitIdle,
     some a.waitStall, r.waitAck - a.ts⟩ :: mergeResults rs rest
  | _, _ => []

/-- Element of the Python sequence handed to send_cycle: either a WBOp or a
value of some other type. -/
inductive PyVal where
  | op (o : WBOp)
  | notOp
deriving DecidableEq

/-- Argument of send_cycle: either not a sequence at all, or a sequence of
Python values. -/
inductive SendArg where
  | nonSeq
  | seq (elems : List PyVal)
deriving DecidableEq

/-- Per-operation loop of send_cycle (driver.py lines 280-292): check each
element is a WBOp, derive write-enable and data (read drives data 0), run
_drive, and collect the auxiliary entries in issue order.  `so`, `ao` and
`ts` supply, per operation, the stall samples, the ack samples and the cycle
counter value at the auxiliary append (environment inputs).  Returns the
assignment trace and either the fault or the auxiliary buffer. -/
def runOps (hasStall : Bool) (tmo : Option Nat) :
    List PyVal → List (List Bool) → List (List ReplyLines) → List Int →
    List SigAssign × Except WBFault (List WBAux)
  | [], _, _, _ => ([], .ok [])
  | .notOp :: _, _, _, _ => ([], .error .badElement)
  | .op o :: rest, so, ao, ts =>
    let we : Nat := if o.dat.isSome then 1 else 0
    let dat : Nat := o.dat.getD 0
    match driveBody hasStall tmo we o.adr dat o.sel o.idle (so.headD [])
        (ao.headD []) (ts.headD 0) with
    | (tr, .error f) => (tr, .error f)
    | (tr, .ok dok) =>
      match runOps hasStall tmo rest so.tail ao.tail ts.tail with
      | (tr2, .error f) => (tr ++ tr2, .error f)
      | (tr2, .ok auxs) => (tr ++ tr2, .ok (dok.aux :: auxs))

/-- WishboneMaster.send_cycle (driver.py lines 262-309).  A non-sequence
argument raises before anything is driven; an empty sequence logs a usage
error and then crashes on the unbound `result` (line 306), still before any
bus activity; otherwise the cycle opens (cyc asserted, first trace entry),
the operations are driven in order, the close waits until the reply buffer
holds at least one entry per operation (otherwise the cycle times out or
hangs: `incompleteCycle`), cyc is de-asserted and the reply and auxiliary
buffers are zipped into the returned results.  `resBuf` is the reply buffer
collected by the concurrent _read task (driver.py lines 209-226), in arrival
order, as it stands when the cycle closes. -/
def send_cycle (hasStall : Bool) (tmo : Option Nat) (arg : SendArg)
    (so : List (List Bool)) (ao : List (List ReplyLines)) (ts : List Int)
    (resBuf : List WBRes) :
    Except WBFault (List WBRes) × List SigAssign :=
  match arg with
  | .nonSeq => (.error .badArgument, [])
  | .seq elems =>
    if elems.length < 1 then (.error .nameError, [])
    else
      match runOps hasStall tmo elems so ao ts with
      | (tr, .error f) => (.error f, SigAssign.cyc 1 :: tr)
      | (tr, .ok auxs) =>
        if elems.length ≤ resBuf.length then
          (.ok (mergeResults resBuf auxs),
           SigAssign.cyc 1 :: (tr ++ [SigAssign.cyc 0]))
        else (.error .incompleteCycle, SigAssign.cyc 1 :: tr)

/-! Shallow embedding of the Avalon-ST packet monitor
    (src/cocotbext/avalon/monitor.py, AvalonSTPktsMonitor._monitor_recv). -/

/-- One character of a BinaryValue binary string: resolved 0, resolved 1, or
an unresolvable character (x/z/u/w). -/
inductive BChar where
  | b0
  | b1
  | bx
deriving DecidableEq

/-- Binary string of a sampled signal value, most significant bit first. -/
abbrev Binstr := List BChar

/-- BinaryValue.is_resolvable: every character is a resolved 0 or 1. -/
def resolvable (v : Binstr) : Bool :=
  v.all (fun c => c ≠ BChar.bx)

/-- Configuration of AvalonSTPktsMonitor relevant to its receive loop
(monitor.py lines 96-131): `useEmpty` is true when the data word holds more
than one symbol; `hasChannel` records whether the bus has a channel signal. -/
structure AvConfig where
  useEmpty : Bool
  dataBitsPerSymbol : Nat
  firstSymbolInHighOrderBits : Bool
  maxChannel : Nat
  invalidTimeout : Nat
  hasChannel : Bool
deriving DecidableEq

/-- Loop state of AvalonSTPktsMonitor._monitor_recv (monitor.py lines
148-151): packet accumulator, open-packet flag, invalid-cycle counter and the
channel latched for the current packet. -/
structure AvState where
  pkt : Binstr
  in_pkt : Bool
  invalid : Nat
  channel : Option Nat
deriving DecidableEq

/-- Signals sampled by the monitor at one clock edge.  `valid` is the
computed valid of monitor.py lines 153-156 (valid AND ready when a ready
signal exists); `chan` is the integer value of the channel signal and is only
meaningful when the bus has one. -/
structure AvIn where
  inReset : Bool
  valid : Bool
  sop : Bool
  eop : Bool
  data : Binstr
  empty : Nat
  chan : Nat
deriving DecidableEq

/-- Protocol errors of the Avalon-ST packet monitor, one per raise site of
monitor.py lines 168-227. -/
inductive AvErr where
  | duplicateStart
  | dataOutside
  | unresolvedAfterEmpty
  | channelTooLarge
  | channelChanged
  | invalidTimeout
deriving DecidableEq

/-- Completed packet emitted at end-of-packet: accumulated bits and the
latched channel. -/
structure AvPkt where
  pkt : Binstr
  chan : Option Nat
deriving DecidableEq

/-- Start-of-packet handling (monitor.py lines 168-173): on start-of-packet,
raise if the accumulator is non-empty (duplicate start), else open a fresh
packet; without start-of-packet keep the current accumulator and flag. -/
def openOnSop (s : AvState) (sop : Bool) : Except AvErr (Binstr × Bool) :=
  if sop then
    if s.pkt ≠ [] then .error .duplicateStart
    else .ok ([], true)
  else .ok (s.pkt, s.in_pkt)

/-- Data-word extraction (monitor.py lines 179-195): off end-of-packet the
raw word is taken unchecked; at end-of-packet, when multiple symbols per word
are configured and the empty count is non-zero, the `empty * bitsPerSymbol`
low-order characters are removed (end of the binary string) under the
firstSymbolInHighOrderBits convention, the leading characters otherwise, and
the remaining value must be fully resolvable. -/
def computeVec (cfg : AvConfig) (eop : Bool) (data : Binstr) (empty : Nat) :
    Except AvErr Binstr :=
  if eop = false then .ok data
  else
    let value :=
      if cfg.useEmpty ∧ empty ≠ 0 then
        let e := empty * cfg.dataBitsPerSymbol
        if cfg.firstSymbolInHighOrderBits then data.take (data.length - e)
        else data.drop e
      else data
    if resolvable value then .ok value else .error .unresolvedAfterEmpty

/-- Channel latching (monitor.py lines 200-207): latch the channel on the
first word of a packet, rejecting values above maxChannel; afterwards reject
any change. -/
def latchChannel (cfg : AvConfig) (cur : Option Nat) (busChan : Nat) :
    Except AvErr (Option Nat) :=
  match cur with
  | none =>
    if busChan > cfg.maxChannel then .error .channelTooLarge
    else .ok (some busChan)
  | some c => if busChan ≠ c then .error .channelChanged else .ok (some c)

/-- One iteration of the AvalonSTPktsMonitor._monitor_recv loop (monitor.py
lines 158-227), from one clock edge: skip while in reset; on a valid cycle
reset the invalid counter, handle start-of-packet, reject data outside a
packet, extract the (possibly empty-masked) word, latch or check the channel,
append the word, and at end-of-packet emit the packet and return to idle; on
an invalid cycle inside a packet count invalid cycles and raise once a
configured invalid timeout is reached. -/
def avStep (cfg : AvConfig) (s : AvState) (i : AvIn) :
    Except AvErr (AvState × Option AvPkt) :=
  if i.inReset = true then .ok (s, none)
  else if i.valid = true then
    match openOnSop s i.sop with
    | .error e => .error e
    | .ok (pkt0, inPkt0) =>
      if inPkt0 = false then .error .dataOutside
      else
        match computeVec cfg i.eop i.data i.empty with
        | .error e => .error e
        | .ok vec =>
          match
            (if cfg.hasChannel then latchChannel cfg s.channel i.chan
             else .ok s.channel) with
          | .error e => .error e
          | .ok chan =>
            let pkt1 := pkt0 ++ vec
            if i.eop = true then
              .ok (⟨[], false, 0, none⟩, some ⟨pkt1, chan⟩)
            else
              .ok (⟨pkt1, true, 0, chan⟩, none)
  else
    if s.in_pkt = true then
      if cfg.invalidTimeout ≠ 0 ∧ s.invalid + 1 ≥ cfg.invalidTimeout then
        .error .invalidTimeout
      else .ok (⟨s.pkt, s.in_pkt, s.invalid + 1, s.channel⟩, none)
    else .ok (s, none)

/-- Reachable-state invariant of the monitor loop: the open-packet flag holds
exactly when the accumulator is non-empty, and the latched channel is cleared
whenever no packet is open. -/
def avInv (s : AvState) : Prop :=
  (s.in_pkt = true ↔ s.pkt ≠ []) ∧ (s.in_pkt = false → s.channel = none)

/-- Initial loop state (monitor.py lines 148-151). -/
def avInit : AvState := ⟨[], false, 0, none⟩

/-! Shallow embedding of the generic monitor core
    (src/cocotb/monitor.py, Monitor._recv). -/

/-- State of a cocotb Event: last data passed to set, and the set flag. -/
structure EventState (α : Type) where
  data : Option α
  isSet : Bool
deriving DecidableEq

/-- State of a Monitor touched by _recv (monitor.py lines 77-93): receive
queue, registered callbacks (modelled by identifiers), statistics counter,
the optional user event and the internal wait event. -/
structure MonState (α : Type) where
  recvQ : List α
  callbacks : List Nat
  receivedTransactions : Nat
  event : Option (EventState α)
  waitEvent : EventState α
deriving DecidableEq

/-- Monitor._recv (monitor.py lines 150-169): bump the statistics counter,
invoke every registered callback with the transaction (returned as the
invocation list, in registration order), append to the receive queue exactly
when no callback is registered, set the user event (when present) with the
transaction as data, and set then clear the wait event with the transaction
as data (so its data is the transaction and its flag ends cleared). -/
def monitor_recv {α : Type} (s : MonState α) (t : α) :
    MonState α × List (Nat × α) :=
  let invoked := s.callbacks.map (fun c => (c, t))
  let q := if s.callbacks.isEmpty then s.recvQ ++ [t] else s.recvQ
  (⟨q, s.callbacks, s.receivedTransactions + 1,
    s.event.map (fun _ => ⟨some t, true⟩), ⟨some t, false⟩⟩, invoked)

/-! Helper lemmas. -/

/-- Head with default agrees with positional lookup at index 0. -/
theorem headD_eq_getD {α : Type} (l : List α) (d : α) :
    l.headD d = l.getD 0 d := by
  cases l <;> rfl

/-- Lookup in a tail shifts the index by one. -/
theorem tail_getD {α : Type} (l : List α) (i : Nat) (d : α) :
    l.tail.getD i d = l.getD (i + 1) d := by
  cases l <;> rfl

/-- Placeholder WBRes used as lookup default. -/
def resNull : WBRes := ⟨0, none, none, none, none, none, none, 0⟩

/-- Placeholder WBAux used as lookup default. -/
def auxNull : WBAux := ⟨0, 0, 0, none, 0, 0⟩

/-- Running the stall loop over k high samples followed by a low sample
returns the incremented count, as long as the timeout is not crossed. -/
theorem wait_stall_go_replicate (T : Nat) (rest : List Bool) :
    ∀ (k c : Nat), c + k ≤ T →
      wait_stall_go (some T) (List.replicate k true ++ false :: rest) c =
        .ok (c + k)
  | 0, c, _ => by simp [wait_stall_go]
  | k + 1, c, h => by
    rw [List.replicate_succ]
    show wait_stall_go (some T) (true :: (List.replicate k true ++ false :: rest)) c = _
    rw [wait_stall_go]
    simp only [if_true]
    have h1 : ¬ (c + 1 > T) := by omega
    rw [if_neg h1, wait_stall_go_replicate T rest k (c + 1) (by omega)]
    congr 1
    omega

/-- Running the stall loop from count c over T + 1 - c further high samples
raises the stall timeout, whatever follows. -/
theorem wait_stall_go_timeout (T : Nat) (rest : List Bool) :
    ∀ (k c : Nat), c + k = T + 1 → 1 ≤ k →
      wait_stall_go (some T) (List.replicate k true ++ rest) c =
        .error .stallTimeout
  | 0, c, _, hk => by omega
  | k + 1, c, h, _ => by
    rw [List.replicate_succ]
    show wait_stall_go (some T) (true :: (List.replicate k true ++ rest)) c = _
    rw [wait_stall_go]
    simp only [if_true]
    by_cases hc : c + 1 > T
    · rw [if_pos hc]
    · rw [if_neg hc]
      exact wait_stall_go_timeout T rest k (c + 1) (by omega) (by omega)

/-! Theorems for the claims. -/

/-- C3: at each sampled clock edge at most one of ack, err, rty may be
asserted.  _get_reply reports no reply (code 0) when none is asserted, code
1/2/3 when exactly ack/err/rty is asserted, and raises a fatal failure on any
simultaneous assertion of two of the lines (ack with err, ack with rty, err
with rty). -/
theorem get_reply_classification (l : ReplyLines) :
    ((l.ack = false ∧ l.err.getD false = false ∧ l.rty.getD false = false) →
       get_reply l = .ok (false, 0)) ∧
    ((l.ack = true ∧ l.err.getD false = false ∧ l.rty.getD false = false) →
       get_reply l = .ok (true, 1)) ∧
    ((l.ack = false ∧ l.err.getD false = true ∧ l.rty.getD false = false) →
       get_reply l = .ok (true, 2)) ∧
    ((l.ack = false ∧ l.err.getD false = false ∧ l.rty.getD false = true) →
       get_reply l = .ok (true, 3)) ∧
    ((l.ack = true ∧ l.err.getD false = true) →
       get_reply l = .error .ackAndErr) ∧
    ((l.ack = true ∧ l.err.getD false = false ∧ l.rty.getD false = true) →
       get_reply l = .error .ackAndRty) ∧
    ((l.ack = false ∧ l.err.getD false = true ∧ l.rty.getD false = true) →
       get_reply l = .error .errAndRty) := by
  rcases l with ⟨a, e, r⟩
  rcases a with _ | _ <;> rcases e with _ | (_ | _) <;>
    rcases r with _ | (_ | _) <;>
    refine ⟨?_, ?_, ?_, ?_, ?_, ?_, ?_⟩ <;> intro hyp <;>
    first
      | rfl
      | (exact absurd hyp (by decide))

/-- C3 witness. -/
theorem get_reply_classification_witness :
    get_reply ⟨false, none, none⟩ = .ok (false, 0) ∧
    get_reply ⟨true, some true, none⟩ = .error .ackAndErr ∧
    get_reply ⟨false, some true, some true⟩ = .error .errAndRty :=
  ⟨(get_reply_classification ⟨false, none, none⟩).1 (by decide),
   (get_reply_classification ⟨true, some true, none⟩).2.2.2.2.1 (by decide),
   (get_reply_classification
      ⟨false, some true, some true⟩).2.2.2.2.2.2 (by decide)⟩

/-- C5: in pipelined mode with a configured timeout T, _wait_stall waits one
edge per high stall sample, counting stalled cycles; it returns the count
once stall drops if the count stayed within T, and raises the fatal stall
timeout as soon as the count exceeds T — after exactly T + 1 high samples,
independently of anything that follows.  During a timed-out stall wait,
_drive has asserted strobe (and never de-asserts it): its assignment trace
ends with strobe and write-enable still high. -/
theorem wait_stall_timeout_spec (T k : Nat) (rest : List Bool)
    (we adr dw sel : Nat) (idle : Option Nat) (ackS : List ReplyLines)
    (clk : Int) :
    (k ≤ T →
       wait_stall true (some T) (List.replicate k true ++ false :: rest) =
         .ok k) ∧
    (wait_stall true (some T) (List.replicate (T + 1) true ++ rest) =
       .error .stallTimeout) ∧
    ((driveBody true (some T) we adr dw sel idle
        (List.replicate (T + 1) true ++ rest) ackS clk).2 =
       .error .stallTimeout) ∧
    ((driveBody true (some T) we adr dw sel idle
        (List.replicate (T + 1) true ++ rest) ackS clk).1 =
       [.stb 1, .adr adr, .sel sel, .datwr dw, .we we]) := by
  have htmo : wait_stall true (some T) (List.replicate (T + 1) true ++ rest) =
      .error .stallTimeout := by
    unfold wait_stall
    rw [if_pos rfl]
    exact wait_stall_go_timeout T rest (T + 1) 0 (by omega) (by omega)
  refine ⟨?_, htmo, ?_, ?_⟩
  · intro hk
    unfold wait_stall
    rw [if_pos rfl]
    have h0 := wait_stall_go_replicate T rest k 0 (by omega)
    simpa using h0
  · unfold driveBody
    rw [htmo]
  · unfold driveBody
    rw [htmo]

/-- C5 witness. -/
theorem wait_stall_timeout_spec_witness :
    wait_stall true (some 5) (List.replicate 3 true ++ false :: []) =
      .ok 3 ∧
    wait_stall true (some 5) (List.replicate 6 true ++ []) =
      .error .stallTimeout :=
  ⟨(wait_stall_timeout_spec 5 3 [] 0 0 0 0 none [] 0).1 (by decide),
   (wait_stall_timeout_spec 5 0 [] 0 0 0 0 none [] 0).2.1⟩

/-- C10: calling _drive while no cycle is open (busy false) waits no clock
edge, performs no bus output assignment (so stb, adr, sel, datwr and we all
keep their prior values), appends nothing to the auxiliary buffer, raises
nothing, and only logs an error. -/
theorem drive_not_busy_frame (hasStall : Bool) (tmo : Option Nat)
    (we adr datwr sel : Nat) (idle : Option Nat) (stallS : List Bool)
    (ackS : List ReplyLines) (clk : Int) :
    drive false hasStall tmo we adr datwr sel idle stallS ackS clk =
      ⟨[], some 0, none, none, true⟩ := rfl

/-- C9: Monitor._recv bumps the received-transaction counter by exactly one,
invokes every registered callback with the transaction, appends the
transaction to the receive queue exactly when no callback is registered, and
sets the wait event (and the user event when present) with the transaction as
its data. -/
theorem monitor_recv_spec {α : Type} (s : MonState α) (t : α) :
    (monitor_recv s t).1.receivedTransactions =
      s.receivedTransactions + 1 ∧
    (monitor_recv s t).2 = s.callbacks.map (fun c => (c, t)) ∧
    (s.callbacks = [] → (monitor_recv s t).1.recvQ = s.recvQ ++ [t]) ∧
    (s.callbacks ≠ [] → (monitor_recv s t).1.recvQ = s.recvQ) ∧
    (monitor_recv s t).1.waitEvent.data = some t ∧
    (∀ e, s.event = some e → (monitor_recv s t).1.event = some ⟨some t, true⟩) := by
  refine ⟨rfl, rfl, ?_, ?_, rfl, ?_⟩
  · intro h
    simp [monitor_recv, h]
  · intro h
    cases hc : s.callbacks with
    | nil => exact absurd hc h
    | cons c cs => simp [monitor_recv, hc]
  · intro e he
    simp [monitor_recv, he]

/-- C9 witness. -/
theorem monitor_recv_spec_witness :
    (monitor_recv (⟨[7], [], 4, some ⟨none, false⟩, ⟨none, true⟩⟩ :
        MonState Nat) 42).1.receivedTransactions = 4 + 1 ∧
    (monitor_recv (⟨[7], [], 4, some ⟨none, false⟩, ⟨none, true⟩⟩ :
        MonState Nat) 42).2 = List.map (fun c => (c, 42)) [] ∧
    (([] : List Nat) = [] →
       (monitor_recv (⟨[7], [], 4, some ⟨none, false⟩, ⟨none, true⟩⟩ :
          MonState Nat) 42).1.recvQ = [7] ++ [42]) ∧
    (([] : List Nat) ≠ [] →
       (monitor_recv (⟨[7], [], 4, some ⟨none, false⟩, ⟨none, true⟩⟩ :
          MonState Nat) 42).1.recvQ = [7]) ∧
    (monitor_recv (⟨[7], [], 4, some ⟨none, false⟩, ⟨none, true⟩⟩ :
        MonState Nat) 42).1.waitEvent.data = some 42 ∧
    (∀ e, (some ⟨none, false⟩ : Option (EventState Nat)) = some e →
       (monitor_recv (⟨[7], [], 4, some ⟨none, false⟩, ⟨none, true⟩⟩ :
          MonState Nat) 42).1.event = some ⟨some 42, true⟩) :=
  monitor_recv_spec ⟨[7], [], 4, some ⟨none, false⟩, ⟨none, true⟩⟩ 42

/-- Initial monitor loop state satisfies the packet invariant. -/
theorem avInv_init : avInv avInit := by
  refine ⟨?_, ?_⟩ <;> simp [avInit, avInv]

/-- One monitor step preserves the packet invariant, for any sampled input
with a non-empty data word (the data signal has positive width). -/
theorem avInv_preserved (cfg : AvConfig) (s : AvState) (i : AvIn)
    (s2 : AvState) (out : Option AvPkt) (hd : i.data ≠ [])
    (hinv : avInv s) (h : avStep cfg s i = .ok (s2, out)) : avInv s2 := by
  unfold avStep at h
  by_cases hr : i.inReset = true
  · rw [if_pos hr] at h
    simp only [Except.ok.injEq, Prod.mk.injEq] at h
    rw [← h.1]
    exact hinv
  · rw [if_neg hr] at h
    by_cases hv : i.valid = true
    · rw [if_pos hv] at h
      cases ho : openOnSop s i.sop with
      | error e => rw [ho] at h; exact absurd h (by simp)
      | ok p =>
        obtain ⟨pkt0, inPkt0⟩ := p
        rw [ho] at h
        simp only [] at h
        by_cases hip : inPkt0 = false
        · rw [if_pos hip] at h; exact absurd h (by simp)
        · rw [if_neg hip] at h
          cases hcv : computeVec cfg i.eop i.data i.empty with
          | error e => rw [hcv] at h; exact absurd h (by simp)
          | ok vec =>
            rw [hcv] at h
            simp only [] at h
            cases hch : (if cfg.hasChannel then latchChannel cfg s.channel i.chan
                else .ok s.channel) with
            | error e => rw [hch] at h; exact absurd h (by simp)
            | ok chan =>
              rw [hch] at h
              simp only [] at h
              by_cases he : i.eop = true
              · rw [if_pos he] at h
                simp only [Except.ok.injEq, Prod.mk.injEq] at h
                rw [← h.1]
                exact ⟨by simp, by simp⟩
              · rw [if_neg he] at h
                simp only [Except.ok.injEq, Prod.mk.injEq] at h
                rw [← h.1]
                have hvec : vec = i.data := by
                  have hcd : computeVec cfg i.eop i.data i.empty = .ok i.data := by
                    unfold computeVec
                    rw [if_pos (by simpa using he)]
                  rw [hcd] at hcv
                  exact (Except.ok.injEq _ _).mp hcv.symm
                refine ⟨⟨fun _ => ?_, fun _ => rfl⟩, by simp⟩
                rw [hvec]
                intro hnil
                exact hd (List.append_eq_nil.mp hnil).2
    · rw [if_neg hv] at h
      by_cases hp : s.in_pkt = true
      · rw [if_pos hp] at h
        by_cases ht : cfg.invalidTimeout ≠ 0 ∧ s.invalid + 1 ≥ cfg.invalidTimeout
        · rw [if_pos ht] at h; exact absurd h (by simp)
        · rw [if_neg ht] at h
          simp only [Except.ok.injEq, Prod.mk.injEq] at h
          rw [← h.1]
          exact hinv
      · rw [if_neg hp] at h
        simp only [Except.ok.injEq, Prod.mk.injEq] at h
        rw [← h.1]
        exact hinv

/-- C6: at most one packet is open at a time.  On a valid, non-reset cycle of
a state satisfying the reachable-state invariant: a start-of-packet while a
packet is already open raises the fatal duplicate-start error; a data
transfer while no packet is open (and no start-of-packet) raises the fatal
data-outside-packet error; and a start-of-packet while idle opens a new
packet with a cleared byte accumulator while the latched channel is still
unresolved. -/
theorem avStep_packet_framing (cfg : AvConfig) (s : AvState) (i : AvIn)
    (hinv : avInv s) (hr : i.inReset = false) (hv : i.valid = true) :
    (s.in_pkt = true → i.sop = true →
       avStep cfg s i = .error .duplicateStart) ∧
    (s.in_pkt = false → i.sop = false →
       avStep cfg s i = .error .dataOutside) ∧
    (s.in_pkt = false → i.sop = true →
       openOnSop s i.sop = .ok ([], true) ∧ s.channel = none) := by
  obtain ⟨h1, h2⟩ := hinv
  refine ⟨?_, ?_, ?_⟩
  · intro hp hsop
    have hne : s.pkt ≠ [] := h1.mp hp
    unfold avStep
    rw [if_neg (by simp [hr]), if_pos hv]
    have ho : openOnSop s i.sop = .error .duplicateStart := by
      unfold openOnSop
      rw [if_pos (by simp [hsop]), if_pos hne]
    rw [ho]
  · intro hp hsop
    unfold avStep
    rw [if_neg (by simp [hr]), if_pos hv]
    have ho : openOnSop s i.sop = .ok (s.pkt, s.in_pkt) := by
      unfold openOnSop
      rw [if_neg (by simp [hsop])]
    rw [ho]
    simp [hp]
  · intro hp hsop
    have hnil : s.pkt = [] := by
      by_contra hne
      rw [h1.mpr hne] at hp
      exact Bool.noConfusion hp
    refine ⟨?_, h2 hp⟩
    unfold openOnSop
    rw [if_pos (by simp [hsop]), if_neg (by simp [hnil])]

/-- C6 witness. -/
theorem avStep_packet_framing_witness :
    ((avInit.in_pkt = true → (true : Bool) = true →
        avStep ⟨false, 8, true, 0, 0, false⟩ avInit
          ⟨false, true, true, false, [.b1], 0, 0⟩ = .error .duplicateStart) ∧
     (avInit.in_pkt = false → (true : Bool) = false →
        avStep ⟨false, 8, true, 0, 0, false⟩ avInit
          ⟨false, true, true, false, [.b1], 0, 0⟩ = .error .dataOutside) ∧
     (avInit.in_pkt = false → (true : Bool) = true →
        openOnSop avInit true = .ok ([], true) ∧ avInit.channel = none)) :=
  avStep_packet_framing ⟨false, 8, true, 0, 0, false⟩ avInit
    ⟨false, true, true, false, [.b1], 0, 0⟩ avInv_init rfl rfl

/-- C7: per monitored clock edge — while in reset the edge is skipped with no
state change and no emission; on a non-valid edge with a packet open the
invalid-cycle counter increments and the monitor fails fatally exactly when a
positive invalid-cycle timeout is configured and the incremented counter
reaches it; on a non-valid edge with no packet open nothing changes; and any
successful valid edge leaves the counter at zero. -/
theorem avStep_reset_invalid_spec (cfg : AvConfig) (s : AvState) (i : AvIn) :
    (i.inReset = true → avStep cfg s i = .ok (s, none)) ∧
    (i.inReset = false → i.valid = false → s.in_pkt = true →
       (cfg.invalidTimeout ≠ 0 ∧ s.invalid + 1 ≥ cfg.invalidTimeout →
          avStep cfg s i = .error .invalidTimeout) ∧
       (¬ (cfg.invalidTimeout ≠ 0 ∧ s.invalid + 1 ≥ cfg.invalidTimeout) →
          avStep cfg s i =
            .ok (⟨s.pkt, s.in_pkt, s.invalid + 1, s.channel⟩, none))) ∧
    (i.inReset = false → i.valid = false → s.in_pkt = false →
       avStep cfg s i = .ok (s, none)) ∧
    (∀ s2 out, i.inReset = false → i.valid = true →
       avStep cfg s i = .ok (s2, out) → s2.invalid = 0) := by
  refine ⟨?_, ?_, ?_, ?_⟩
  · intro hr
    unfold avStep
    rw [if_pos hr]
  · intro hr hv hp
    constructor
    · intro ht
      unfold avStep
      rw [if_neg (by simp [hr]), if_neg (by simp [hv]), if_pos hp, if_pos ht]
    · intro ht
      unfold avStep
      rw [if_neg (by simp [hr]), if_neg (by simp [hv]), if_pos hp, if_neg ht]
  · intro hr hv hp
    unfold avStep
    rw [if_neg (by simp [hr]), if_neg (by simp [hv]), if_neg (by simp [hp])]
  · intro s2 out hr hv h
    unfold avStep at h
    rw [if_neg (by simp [hr]), if_pos hv] at h
    cases ho : openOnSop s i.sop with
    | error e => rw [ho] at h; exact absurd h (by simp)
    | ok p =>
      obtain ⟨pkt0, inPkt0⟩ := p
      rw [ho] at h
      simp only [] at h
      by_cases hip : inPkt0 = false
      · rw [if_pos hip] at h; exact absurd h (by simp)
      · rw [if_neg hip] at h
        cases hcv : computeVec cfg i.eop i.data i.empty with
        | error e => rw [hcv] at h; exact absurd h (by simp)
        | ok vec =>
          rw [hcv] at h
          simp only [] at h
          cases hch : (if cfg.hasChannel then latchChannel cfg s.channel i.chan
              else .ok s.channel) with
          | error e => rw [hch] at h; exact absurd h (by simp)
          | ok chan =>
            rw [hch] at h
            simp only [] at h
            by_cases he : i.eop = true
            · rw [if_pos he] at h
              simp only [Except.ok.injEq, Prod.mk.injEq] at h
              rw [← h.1]
            · rw [if_neg he] at h
              simp only [Except.ok.injEq, Prod.mk.injEq] at h
              rw [← h.1]

/-- C7 witness. -/
theorem avStep_reset_invalid_spec_witness :
    (((true : Bool) = true →
        avStep ⟨false, 8, true, 0, 2, false⟩ ⟨[.b1], true, 1, none⟩
            ⟨true, false, false, false, [], 0, 0⟩ =
          .ok (⟨[.b1], true, 1, none⟩, none)) ∧
     ((true : Bool) = false → (false : Bool) = false → (true : Bool) = true →
        ((2 ≠ 0 ∧ 1 + 1 ≥ 2 →
           avStep ⟨false, 8, true, 0, 2, false⟩ ⟨[.b1], true, 1, none⟩
               ⟨true, false, false, false, [], 0, 0⟩ =
             .error .invalidTimeout) ∧
         (¬ (2 ≠ 0 ∧ 1 + 1 ≥ 2) →
           avStep ⟨false, 8, true, 0, 2, false⟩ ⟨[.b1], true, 1, none⟩
               ⟨true, false, false, false, [], 0, 0⟩ =
             .ok (⟨[.b1], true, 1 + 1, none⟩, none)))) ∧
     ((true : Bool) = false → (false : Bool) = false → (true : Bool) = false →
        avStep ⟨false, 8, true, 0, 2, false⟩ ⟨[.b1], true, 1, none⟩
            ⟨true, false, false, false, [], 0, 0⟩ =
          .ok (⟨[.b1], true, 1, none⟩, none)) ∧
     (∀ s2 out, (true : Bool) = false → (false : Bool) = true →
        avStep ⟨false, 8, true, 0, 2, false⟩ ⟨[.b1], true, 1, none⟩
            ⟨true, false, false, false, [], 0, 0⟩ = .ok (s2, out) →
        s2.invalid = 0)) :=
  avStep_reset_invalid_spec ⟨false, 8, true, 0, 2, false⟩
    ⟨[.b1], true, 1, none⟩ ⟨true, false, false, false, [], 0, 0⟩

/-- C8: on a valid end-of-packet cycle of a bus configured with multiple
symbols per word, the monitor removes the empty-count of symbols from the
data word — the trailing (low-order) characters of the binary string when
firstSymbolInHighOrderBits is configured, the leading characters otherwise —
and raises a fatal error exactly when the value remaining after masking still
contains unresolvable characters. -/
theorem computeVec_empty_masking (cfg : AvConfig) (data : Binstr)
    (empty : Nat) (hu : cfg.useEmpty = true) :
    (cfg.firstSymbolInHighOrderBits = true →
       (resolvable
            (data.take (data.length - empty * cfg.dataBitsPerSymbol)) = true →
          computeVec cfg true data empty =
            .ok (data.take (data.length - empty * cfg.dataBitsPerSymbol))) ∧
       (resolvable
            (data.take (data.length - empty * cfg.dataBitsPerSymbol)) = false →
          computeVec cfg true data empty = .error .unresolvedAfterEmpty)) ∧
    (cfg.firstSymbolInHighOrderBits = false →
       (resolvable (data.drop (empty * cfg.dataBitsPerSymbol)) = true →
          computeVec cfg true data empty =
            .ok (data.drop (empty * cfg.dataBitsPerSymbol))) ∧
       (resolvable (data.drop (empty * cfg.dataBitsPerSymbol)) = false →
          computeVec cfg true data empty = .error .unresolvedAfterEmpty)) := by
  by_cases hz : empty = 0
  · subst hz
    simp only [Nat.zero_mul, Nat.sub_zero, List.take_length, List.drop_zero]
    refine ⟨fun _ => ⟨?_, ?_⟩, fun _ => ⟨?_, ?_⟩⟩ <;> intro hres <;>
      simp [computeVec, hres]
  · constructor
    · intro hfs
      constructor <;> intro hres <;>
        simp [computeVec, hu, hz, hfs, hres]
    · intro hfs
      constructor <;> intro hres <;>
        simp [computeVec, hu, hz, hfs, hres]

/-- C8 witness. -/
theorem computeVec_empty_masking_witness :
    computeVec ⟨true, 2, true, 0, 0, false⟩ true [.b1, .b0, .bx, .bx] 1 =
      .ok (List.take ([BChar.b1, .b0, .bx, .bx].length - 1 * 2)
        [BChar.b1, .b0, .bx, .bx]) ∧
    computeVec ⟨true, 2, true, 0, 0, false⟩ true [.bx, .b0, .b1, .b1] 1 =
      .error .unresolvedAfterEmpty :=
  ⟨((computeVec_empty_masking ⟨true, 2, true, 0, 0, false⟩
      [.b1, .b0, .bx, .bx] 1 rfl).1 rfl).1 (by decide),
   ((computeVec_empty_masking ⟨true, 2, true, 0, 0, false⟩
      [.bx, .b0, .b1, .b1] 1 rfl).1 rfl).2 (by decide)⟩

/-- A list member sits at some in-bounds index. -/
theorem mem_exists_getD {α : Type} (d : α) :
    ∀ (l : List α) (a : α), a ∈ l → ∃ i, i < l.length ∧ l.getD i d = a := by
  intro l
  induction l with
  | nil => intro a h; cases h
  | cons x xs ih =>
    intro a h
    cases h with
    | head => exact ⟨0, by simp, rfl⟩
    | tail _ hmem =>
      obtain ⟨i, hi, hg⟩ := ih a hmem
      exact ⟨i + 1, by simpa using hi, hg⟩

/-- A successful _drive records exactly the WBAux entry built from its
arguments: select, address, write data, idle request, the stall count
returned by _wait_stall on the supplied stall samples, and the
cycle-counter timestamp. -/
theorem driveBody_ok_shape (hasStall : Bool) (tmo : Option Nat)
    (we adr datwr sel : Nat) (idle : Option Nat) (stallS : List Bool)
    (ackS : List ReplyLines) (clk : Int) (tr : List SigAssign)
    (dok : DriveOk)
    (h : driveBody hasStall tmo we adr datwr sel idle stallS ackS clk =
      (tr, .ok dok)) :
    ∃ st, wait_stall hasStall tmo stallS = .ok st ∧
      dok.aux = ⟨sel, adr, datwr, idle, st, clk⟩ := by
  unfold driveBody at h
  cases hws : wait_stall hasStall tmo stallS with
  | error f => rw [hws] at h; exact absurd h (by simp)
  | ok stalled =>
    rw [hws] at h
    simp only [] at h
    cases hwa : wait_ack hasStall ackS with
    | error f => rw [hwa] at h; exact absurd h (by simp)
    | ok ackEdges =>
      rw [hwa] at h
      simp only [Prod.mk.injEq, Except.ok.injEq] at h
      refine ⟨stalled, rfl, ?_⟩
      rw [← h.2]

/-- A run of the per-operation loop that returns an auxiliary buffer built
one entry per operation, in issue order: entry i records operation i's
select, address, derived write data and idle request, together with the
stall count _wait_stall computed from operation i's stall samples and the
i-th sampled cycle counter. -/
theorem runOps_ok_spec (hasStall : Bool) (tmo : Option Nat) :
    ∀ (elems : List PyVal) (so : List (List Bool))
      (ao : List (List ReplyLines)) (ts : List Int) (tr : List SigAssign)
      (auxs : List WBAux),
      runOps hasStall tmo elems so ao ts = (tr, .ok auxs) →
      auxs.length = elems.length ∧
      ∀ i, i < elems.length →
        ∃ o st, elems.getD i .notOp = .op o ∧
          wait_stall hasStall tmo (so.getD i []) = .ok st ∧
          auxs.getD i auxNull =
            ⟨o.sel, o.adr, o.dat.getD 0, o.idle, st, ts.getD i 0⟩ := by
  intro elems
  induction elems with
  | nil =>
    intro so ao ts tr auxs h
    simp only [runOps, Prod.mk.injEq, Except.ok.injEq] at h
    obtain ⟨-, h2⟩ := h
    rw [← h2]
    exact ⟨rfl, fun i hi => absurd hi (by simp)⟩
  | cons e rest ih =>
    intro so ao ts tr auxs h
    cases e with
    | notOp => exact absurd h (by simp [runOps])
    | op o =>
      simp only [runOps] at h
      rcases hdb : driveBody hasStall tmo (if o.dat.isSome then 1 else 0)
          o.adr (o.dat.getD 0) o.sel o.idle (so.headD []) (ao.headD [])
          (ts.headD 0) with ⟨tr1, r1⟩
      rw [hdb] at h
      cases r1 with
      | error f => exact absurd h (by simp)
      | ok dok =>
        simp only [] at h
        rcases hro : runOps hasStall tmo rest so.tail ao.tail ts.tail
          with ⟨tr2, r2⟩
        rw [hro] at h
        cases r2 with
        | error f => exact absurd h (by simp)
        | ok auxs2 =>
          simp only [] at h
          simp only [Prod.mk.injEq, Except.ok.injEq] at h
          obtain ⟨-, h2⟩ := h
          rw [← h2]
          obtain ⟨hlen, hspec⟩ := ih so.tail ao.tail ts.tail tr2 auxs2 hro
          obtain ⟨st, hws, haux⟩ := driveBody_ok_shape hasStall tmo
            (if o.dat.isSome then 1 else 0) o.adr (o.dat.getD 0) o.sel o.idle
            (so.headD []) (ao.headD []) (ts.headD 0) tr1 dok hdb
          constructor
          · simp [hlen]
          · intro i hi
            cases i with
            | zero =>
              refine ⟨o, st, rfl, ?_, ?_⟩
              · rw [← headD_eq_getD]
                exact hws
              · show dok.aux = _
                rw [haux, headD_eq_getD]
            | succ i =>
              have hi2 : i < rest.length := by
                simp only [List.length_cons] at hi
                omega
              obtain ⟨o2, st2, heq, hws2, haux2⟩ := hspec i hi2
              refine ⟨o2, st2, heq, ?_, ?_⟩
              · rw [← tail_getD]
                exact hws2
              · show auxs2.getD i auxNull = _
                rw [haux2, tail_getD]

/-- The result/auxiliary zip pairs buffers positionally and rewrites exactly
the fields the source rewrites. -/
theorem mergeResults_spec :
    ∀ (rb : List WBRes) (auxs : List WBAux), auxs.length ≤ rb.length →
      (mergeResults rb auxs).length = auxs.length ∧
      ∀ i, i < auxs.length →
        (mergeResults rb auxs).getD i resNull =
          ⟨(rb.getD i resNull).ack, some ((auxs.getD i auxNull).sel),
           some ((auxs.getD i auxNull).adr), (rb.getD i resNull).datrd,
           some ((auxs.getD i auxNull).datwr),
           (auxs.getD i auxNull).waitIdle,
           some ((auxs.getD i auxNull).waitStall),
           (rb.getD i resNull).waitAck - (auxs.getD i auxNull).ts⟩ := by
  intro rb auxs
  induction auxs generalizing rb with
  | nil =>
    intro _
    cases rb <;> exact ⟨rfl, fun i hi => absurd hi (by simp)⟩
  | cons a arest ih =>
    intro hle
    cases rb with
    | nil =>
      exact absurd hle (by simp)
    | cons r rrest =>
      have hle2 : arest.length ≤ rrest.length := by
        simp only [List.length_cons] at hle
        omega
      obtain ⟨ihlen, ihspec⟩ := ih rrest hle2
      constructor
      · simp only [mergeResults, List.length_cons, ihlen]
      · intro i hi
        cases i with
        | zero => rfl
        | succ i =>
          have hi2 : i < arest.length := by
            simp only [List.length_cons] at hi
            omega
          exact ihspec i hi2

/-- Inversion of a successfully completed send_cycle: the per-operation loop
succeeded, every operation was acknowledged (the final reply buffer is at
least as long as the operation list) and the returned results are the zip of
the reply and auxiliary buffers. -/
theorem send_cycle_ok_inversion (hasStall : Bool) (tmo : Option Nat)
    (elems : List PyVal) (so : List (List Bool))
    (ao : List (List ReplyLines)) (ts : List Int) (resBuf : List WBRes)
    (results : List WBRes)
    (h : (send_cycle hasStall tmo (.seq elems) so ao ts resBuf).1 =
      .ok results) :
    ∃ tr auxs, runOps hasStall tmo elems so ao ts = (tr, .ok auxs) ∧
      elems.length ≤ resBuf.length ∧
      results = mergeResults resBuf auxs := by
  unfold send_cycle at h
  simp only [] at h
  by_cases hl : elems.length < 1
  · rw [if_pos hl] at h; exact absurd h (by simp)
  · rw [if_neg hl] at h
    rcases hro : runOps hasStall tmo elems so ao ts with ⟨tr, r⟩
    rw [hro] at h
    cases r with
    | error f => simp only [] at h; exact absurd h (by simp)
    | ok auxs =>
      simp only [] at h
      by_cases hrb : elems.length ≤ resBuf.length
      · rw [if_pos hrb] at h
        simp only [Except.ok.injEq] at h
        exact ⟨tr, auxs, rfl, hrb, h.symm⟩
      · rw [if_neg hrb] at h; exact absurd h (by simp)

/-- C1: whenever send_cycle runs to completion (returns ok: every operation
acknowledged, no fatal error), the returned list holds exactly one result
per submitted element, and the i-th result is paired with the i-th submitted
operation by issue order via the parallel buffers: it carries operation i's
address, select and write data, and reply buffer entry i's ack code and read
data — not any pairing by completion order. -/
theorem send_cycle_length_and_order (hasStall : Bool) (tmo : Option Nat)
    (elems : List PyVal) (so : List (List Bool))
    (ao : List (List ReplyLines)) (ts : List Int) (resBuf : List WBRes)
    (results : List WBRes)
    (h : (send_cycle hasStall tmo (.seq elems) so ao ts resBuf).1 =
      .ok results) :
    results.length = elems.length ∧
    ∀ i, i < elems.length →
      ∃ o, elems.getD i .notOp = .op o ∧
        (results.getD i resNull).adr = some o.adr ∧
        (results.getD i resNull).sel = some o.sel ∧
        (results.getD i resNull).datwr = some (o.dat.getD 0) ∧
        (results.getD i resNull).ack = (resBuf.getD i resNull).ack ∧
        (results.getD i resNull).datrd = (resBuf.getD i resNull).datrd := by
  obtain ⟨tr, auxs, hro, hle, hres⟩ :=
    send_cycle_ok_inversion hasStall tmo elems so ao ts resBuf results h
  obtain ⟨hlen, hspec⟩ :=
    runOps_ok_spec hasStall tmo elems so ao ts tr auxs hro
  have hle2 : auxs.length ≤ resBuf.length := by rw [hlen]; exact hle
  obtain ⟨hmlen, hmspec⟩ := mergeResults_spec resBuf auxs hle2
  subst hres
  constructor
  · rw [hmlen, hlen]
  · intro i hi
    have hi2 : i < auxs.length := by rw [hlen]; exact hi
    obtain ⟨o, st, heq, -, haux⟩ := hspec i hi
    refine ⟨o, heq, ?_, ?_, ?_, ?_, ?_⟩ <;> rw [hmspec i hi2, haux]

/-- C1 witness. -/
def wOpList1 : List PyVal := [.op ⟨3, some 7, some 2, 5⟩]

/-- C1 witness reply buffer. -/
def wRbList1 : List WBRes := [⟨1, none, none, some 99, none, none, none, 10⟩]

/-- C1 witness result list. -/
def wResList1 : List WBRes :=
  [⟨1, some 5, some 3, some 99, some 7, some 2, some 0, 6⟩]

/-- C1 witness theorem. -/
theorem send_cycle_length_and_order_witness :
    wResList1.length = wOpList1.length ∧
    ∀ i, i < wOpList1.length →
      ∃ o, wOpList1.getD i .notOp = .op o ∧
        (wResList1.getD i resNull).adr = some o.adr ∧
        (wResList1.getD i resNull).sel = some o.sel ∧
        (wResList1.getD i resNull).datwr = some (o.dat.getD 0) ∧
        (wResList1.getD i resNull).ack = (wRbList1.getD i resNull).ack ∧
        (wResList1.getD i resNull).datrd = (wRbList1.getD i resNull).datrd :=
  send_cycle_length_and_order false none wOpList1 [[]]
    [[⟨true, none, none⟩]] [4] wRbList1 wResList1 rfl

/-- C4: after a completed cycle the final results are the positional zip of
the reply and auxiliary buffers: the i-th result's write data, address,
select, idle count and stall count equal those recorded for the i-th issued
operation (a write's echoed write data and address are exactly the submitted
operation's; the stall count st is the one _wait_stall computed from
operation i's stall samples and recorded in its auxiliary entry), its ack
and read data come from reply i, and its waitAck is the cycle counter
captured at reply i minus operation i's issue timestamp. -/
theorem send_cycle_zip_fields (hasStall : Bool) (tmo : Option Nat)
    (elems : List PyVal) (so : List (List Bool))
    (ao : List (List ReplyLines)) (ts : List Int) (resBuf : List WBRes)
    (results : List WBRes)
    (h : (send_cycle hasStall tmo (.seq elems) so ao ts resBuf).1 =
      .ok results) :
    ∀ i, i < elems.length →
      ∃ o st, elems.getD i .notOp = .op o ∧
        wait_stall hasStall tmo (so.getD i []) = .ok st ∧
        results.getD i resNull =
          ⟨(resBuf.getD i resNull).ack, some o.sel, some o.adr,
           (resBuf.getD i resNull).datrd, some (o.dat.getD 0), o.idle,
           some st, (resBuf.getD i resNull).waitAck - ts.getD i 0⟩ := by
  obtain ⟨tr, auxs, hro, hle, hres⟩ :=
    send_cycle_ok_inversion hasStall tmo elems so ao ts resBuf results h
  obtain ⟨hlen, hspec⟩ :=
    runOps_ok_spec hasStall tmo elems so ao ts tr auxs hro
  have hle2 : auxs.length ≤ resBuf.length := by rw [hlen]; exact hle
  obtain ⟨-, hmspec⟩ := mergeResults_spec resBuf auxs hle2
  subst hres
  intro i hi
  have hi2 : i < auxs.length := by rw [hlen]; exact hi
  obtain ⟨o, st, heq, hws, haux⟩ := hspec i hi
  refine ⟨o, st, heq, hws, ?_⟩
  rw [hmspec i hi2, haux]

/-- C4 witness operation list. -/
def wOpList2 : List PyVal := [.op ⟨8, none, none, 15⟩]

/-- C4 witness reply buffer. -/
def wRbList2 : List WBRes := [⟨2, none, none, some 5, none, none, none, 9⟩]

/-- C4 witness result list. -/
def wResList2 : List WBRes :=
  [⟨2, some 15, some 8, some 5, some 0, none, some 0, 7⟩]

/-- C4 witness theorem. -/
theorem send_cycle_zip_fields_witness :
    ∃ o st, wOpList2.getD 0 .notOp = .op o ∧
      wait_stall true none [false] = .ok st ∧
      wResList2.getD 0 resNull =
        ⟨(wRbList2.getD 0 resNull).ack, some o.sel, some o.adr,
         (wRbList2.getD 0 resNull).datrd, some (o.dat.getD 0), o.idle,
         some st,
         (wRbList2.getD 0 resNull).waitAck - [(2 : Int)].getD 0 0⟩ :=
  send_cycle_zip_fields true none wOpList2 [[false]] [[]] [2]
    wRbList2 wResList2 rfl 0 (by decide)

/-- C2 counterexample: a sequence whose sole element is not a WBOp is
rejected only inside the per-operation loop, after the cycle has been
opened — the fatal element fault is raised with the cycle-valid line already
asserted (the assignment trace holds cyc := 1), contradicting the claim
that the fault is raised without the cycle-valid line being asserted. -/
theorem send_cycle_opens_before_element_check :
    (send_cycle false none (.seq [.notOp]) [] [] [] []).1 =
      .error .badElement ∧
    (send_cycle false none (.seq [.notOp]) [] [] [] []).2 =
      [SigAssign.cyc 1] :=
  ⟨rfl, rfl⟩

/-- C2 amended: a non-sequence argument and an empty sequence are rejected
before any bus activity (no output driven, cycle-valid never asserted; the
empty sequence logs the usage error and then crashes on the unbound local
`result`), but a sequence containing a non-WBOp value is only detected
inside the per-operation loop after the cycle has been opened: the call
never completes successfully, and its first bus assignment is the assertion
of the cycle-valid line. -/
theorem send_cycle_usage_fault_timing (hasStall : Bool) (tmo : Option Nat)
    (so : List (List Bool)) (ao : List (List ReplyLines)) (ts : List Int)
    (resBuf : List WBRes) :
    send_cycle hasStall tmo .nonSeq so ao ts resBuf =
      (.error .badArgument, []) ∧
    send_cycle hasStall tmo (.seq []) so ao ts resBuf =
      (.error .nameError, []) ∧
    ∀ elems, PyVal.notOp ∈ elems →
      (∀ r, (send_cycle hasStall tmo (.seq elems) so ao ts resBuf).1 ≠
         .ok r) ∧
      (send_cycle hasStall tmo (.seq elems) so ao ts resBuf).2.head? =
        some (SigAssign.cyc 1) := by
  refine ⟨rfl, rfl, ?_⟩
  intro elems hmem
  constructor
  · intro r hok
    obtain ⟨tr, auxs, hro, -, -⟩ :=
      send_cycle_ok_inversion hasStall tmo elems so ao ts resBuf r hok
    obtain ⟨-, hspec⟩ :=
      runOps_ok_spec hasStall tmo elems so ao ts tr auxs hro
    obtain ⟨i, hi, hg⟩ := mem_exists_getD PyVal.notOp elems .notOp hmem
    obtain ⟨o, st, heq, -, -⟩ := hspec i hi
    rw [hg] at heq
    exact PyVal.noConfusion heq
  · have hlen : ¬ elems.length < 1 := by
      cases elems with
      | nil => cases hmem
      | cons x xs => simp
    unfold send_cycle
    simp only []
    rw [if_neg hlen]
    rcases hro : runOps hasStall tmo elems so ao ts with ⟨tr, r⟩
    cases r with
    | error f => rfl
    | ok auxs =>
      by_cases hrb : elems.length ≤ resBuf.length
      · simp [hrb]
      · simp [hrb]

/-- C2 amended witness. -/
theorem send_cycle_usage_fault_timing_witness :
    (∀ r, (send_cycle false none
        (.seq [.op ⟨0, none, some 0, 15⟩, .notOp]) [[]] [[]] [0] []).1 ≠
      .ok r) ∧
    (send_cycle false none
        (.seq [.op ⟨0, none, some 0, 15⟩, .notOp]) [[]] [[]] [0] []).2.head? =
      some (SigAssign.cyc 1) :=
  (send_cycle_usage_fault_timing false none [[]] [[]] [0] []).2.2
    [.op ⟨0, none, some 0, 15⟩, .notOp] (by decide)

end Cocotb
